import Mathlib

/-!
# Verification of the pyserve transport layer

Shallow embedding of the pyserve repository (`pyserve/socketprotocol.py`,
`pyserve/connection.py`, `pyserve/server.py`, `pyserve/client.py`,
`pyserve/manager.py`) together with theorems settling the frozen claims
about the natural-language specification.

Modelling conventions:
* Python `bytes` values are `List Nat` (one `Nat` per byte).
* The packed binary header produced by `struct.pack(byte_encoding_string,
  length, style)` is modelled symbolically as a `BItem.hdr length style`
  token on the wire, since `byte_encoding_string`/`info_bytes` are opaque
  configuration parameters; payload bytes are `BItem.byte` tokens.
  `struct.unpack` succeeds exactly on a header token and raises
  `struct.error` otherwise (short read at end of stream).
* Python exceptions are modelled with `Except`: a returned `None` packet is
  `Except.ok none`, an exception escaping the function is `Except.error`.
* Codec `encode`/`decode` functions are opaque parameters, as in the source
  (`make_binary_protocol` / `make_string_protocol` receive them as
  arguments); `decode` may signal `PacketMalformedError`, hence has type
  `List Nat → Except Unit P`.
-/

namespace Pyserve

/- Python `bytes` values are represented as `List Nat`, one entry per
byte. -/

/-- `MAX_PACKET_SIZE` from `pyserve/socketprotocol.py`. -/
def MAX_PACKET_SIZE : Nat := 8000000000

/-- `chop(seq, dist)` from `pyserve/socketprotocol.py`: partition `seq` into
consecutive chunks of size `dist`, the last chunk taking the remainder.
The source generator `_chop` raises `NameError` when `len(seq) <= dist`
(the loop variable `end` is unbound); `chop` is only invoked by
`send_message` with `len(seq) > dist` and there this definition agrees
with the source.  The guard `0 < dist` mirrors `range`'s rejection of a
zero step. -/
def chop (seq : List Nat) (dist : Nat) : List (List Nat) :=
  if _h : 0 < dist ∧ dist < seq.length then
    seq.take dist :: chop (seq.drop dist) dist
  else
    [seq]
termination_by seq.length
decreasing_by
  simp only [List.length_drop]
  omega

/-- One item on the binary wire: a packed `(length, style)` header or a
single payload byte. -/
inductive BItem where
  | hdr (length style : Nat)
  | byte (b : Nat)
deriving DecidableEq, Repr

/-- The frame sequence the binary `send_message` loop emits for the chunk
list `chopped`: chunk `i` of `k` is preceded by a header carrying its
length and style `k - i`; the final chunk gets style `1` (which equals
`k - (k-1)`). Mirrors the `for i in range(len(chopped) - 1)` loop plus
the trailing final-chunk send in `make_binary_protocol.send_message`. -/
def chainFrames : List (List Nat) → List BItem
  | [] => []
  | [c] => BItem.hdr c.length 1 :: c.map BItem.byte
  | c :: c2 :: rest =>
      (BItem.hdr c.length ((c2 :: rest).length + 1) :: c.map BItem.byte)
        ++ chainFrames (c2 :: rest)

/-- `send_message` of `make_binary_protocol` (socketprotocol.py lines
45–57), applied to the already-encoded payload `E = encode_function(packet)`:
the sequence of wire items transmitted. -/
def sendBinaryFrames (E : List Nat) : List BItem :=
  if MAX_PACKET_SIZE < E.length then
    chainFrames (chop E MAX_PACKET_SIZE)
  else
    BItem.hdr E.length 0 :: E.map BItem.byte

/-- Binary `send_message` composed with the codec's `encode_function`. -/
def sendBinary {P : Type} (encode : P → List Nat) (p : P) : List BItem :=
  sendBinaryFrames (encode p)

/-- `sock.recv(n)` for payload bytes: returns the leading run of up to `n`
payload bytes of the stream (a short return models end-of-stream, where
the blocking `recv` yields fewer bytes than requested). -/
def grabBytes : Nat → List BItem → List Nat × List BItem
  | 0, s => ([], s)
  | n + 1, BItem.byte b :: s =>
      let r := grabBytes n s
      (b :: r.1, r.2)
  | _ + 1, s => ([], s)

/-- The `for _ in range(style - 1)` loop of the binary `recv_message`
chained path: read another header and its payload, `fuel` times, and
return the concatenated payload bytes.  `none` models `struct.error`
raised by an inner `struct.unpack` (short or absent header). -/
def chainRecv : Nat → List BItem → Option (List Nat × List BItem)
  | 0, s => some ([], s)
  | fuel + 1, BItem.hdr length _ :: s =>
      let r := grabBytes length s
      (chainRecv fuel r.2).map (fun q => (r.1 ++ q.1, q.2))
  | _ + 1, _ => none

/-- `recv_message` of `make_binary_protocol` (socketprotocol.py lines
59–85). `Except.ok none` is a returned `None` (caught `struct.error`, or
caught `PacketMalformedError` on the single-frame path);
`Except.error ()` is an exception escaping the function — in the chained
(`style >= 1`) path `decode_function` is called inside a `try` block
whose only handler is `except struct.error`, so a
`PacketMalformedError` raised there propagates. -/
def recvBinary {P : Type} (decode : List Nat → Except Unit P) :
    List BItem → Except Unit (Option P)
  | [] => Except.ok none
  | BItem.byte _ :: _ => Except.ok none
  | BItem.hdr length style :: s =>
    if style = 0 then
      -- falls through the try/except; single payload read, decode guarded
      -- by `except PacketMalformedError: return None`
      match decode (grabBytes length s).1 with
      | Except.ok p => Except.ok (some p)
      | Except.error _ => Except.ok none
    else
      -- chained path, entirely inside `try ... except struct.error`
      let r := grabBytes length s
      match chainRecv (style - 1) r.2 with
      | none => Except.ok none
      | some q =>
        match decode (r.1 ++ q.1) with
        | Except.ok p => Except.ok (some p)
        | Except.error _ => Except.error ()

/-- The frame sequence rendered positionally, as the specification states
it: chunk `i` of `k` chunks is transmitted behind a header carrying its
length and style `k - i` (for the final chunk `i = k - 1` this is `1`). -/
def frameEnum (cs : List (List Nat)) : List BItem :=
  ((List.range cs.length).map (fun i =>
      BItem.hdr (cs.getD i []).length (cs.length - i)
        :: (cs.getD i []).map BItem.byte)).flatten

theorem chop_flatten (seq : List Nat) (dist : Nat) :
    (chop seq dist).flatten = seq := by
  induction seq, dist using chop.induct with
  | case1 seq dist h ih =>
    rw [chop]
    simp [h, ih]
  | case2 seq dist h =>
    rw [chop]
    simp [h]

theorem chop_eq_cons (seq : List Nat) (dist : Nat)
    (h : 0 < dist ∧ dist < seq.length) :
    chop seq dist = seq.take dist :: chop (seq.drop dist) dist := by
  rw [chop, dif_pos h]

theorem chop_chunk_full (seq : List Nat) (dist : Nat) :
    ∀ i, i + 1 < (chop seq dist).length →
      ((chop seq dist).getD i []).length = dist := by
  induction seq, dist using chop.induct with
  | case1 seq dist h ih =>
    intro i hi
    rw [chop_eq_cons seq dist h] at hi ⊢
    match i with
    | 0 =>
      simp only [List.getD_cons_zero, List.length_take]
      omega
    | j + 1 =>
      simp only [List.length_cons] at hi
      simpa using ih j (by omega)
  | case2 seq dist h =>
    intro i hi
    rw [chop, dif_neg h] at hi
    simp at hi

theorem chop_chunk_le (seq : List Nat) (dist : Nat) (hdist : 0 < dist) :
    ∀ i, ((chop seq dist).getD i []).length ≤ dist := by
  induction seq, dist using chop.induct with
  | case1 seq dist h ih =>
    intro i
    rw [chop_eq_cons seq dist h]
    match i with
    | 0 =>
      simp only [List.getD_cons_zero, List.length_take]
      omega
    | j + 1 =>
      simpa using ih hdist j
  | case2 seq dist h =>
    intro i
    rw [chop, dif_neg h]
    match i with
    | 0 =>
      simp only [List.getD_cons_zero]
      omega
    | j + 1 =>
      simp [List.getD]

theorem chainFrames_cons (c : List Nat) (cs : List (List Nat)) :
    chainFrames (c :: cs)
      = (BItem.hdr c.length (cs.length + 1) :: c.map BItem.byte)
          ++ chainFrames cs := by
  cases cs with
  | nil => simp [chainFrames]
  | cons c2 rest => rfl

theorem chainFrames_eq_frameEnum (cs : List (List Nat)) :
    chainFrames cs = frameEnum cs := by
  induction cs with
  | nil => rfl
  | cons c cs ih =>
    rw [chainFrames_cons, ih]
    simp only [frameEnum, List.length_cons, List.range_succ_eq_map,
      List.map_cons, List.map_map, List.flatten_cons, List.getD_cons_zero,
      Nat.sub_zero]
    congr 1
    apply congrArg
    apply List.map_congr_left
    intro i _
    simp [Function.comp, List.getD_cons_succ, Nat.succ_sub_succ]

theorem grabBytes_exact (l : List Nat) (rest : List BItem) :
    grabBytes l.length (l.map BItem.byte ++ rest) = (l, rest) := by
  induction l with
  | nil => rfl
  | cons b t ih => simp [grabBytes, ih]

theorem grabBytes_exact_nil (l : List Nat) :
    grabBytes l.length (l.map BItem.byte) = (l, []) := by
  simpa using grabBytes_exact l []

theorem chainRecv_chainFrames (cs : List (List Nat)) :
    chainRecv cs.length (chainFrames cs) = some (cs.flatten, []) := by
  induction cs with
  | nil => rfl
  | cons c cs ih =>
    rw [chainFrames_cons, List.length_cons]
    simp [chainRecv, grabBytes_exact, ih]

theorem recvBinary_sendBinary {P : Type} (enc : P → List Nat)
    (dec : List Nat → Except Unit P) (p : P)
    (hinv : dec (enc p) = Except.ok p) :
    recvBinary dec (sendBinary enc p) = Except.ok (some p) := by
  unfold sendBinary sendBinaryFrames
  by_cases h : MAX_PACKET_SIZE < (enc p).length
  · rw [if_pos h]
    have hchop := chop_eq_cons (enc p) MAX_PACKET_SIZE
      ⟨by norm_num [MAX_PACKET_SIZE], h⟩
    have hflat : ((enc p).take MAX_PACKET_SIZE
        :: chop ((enc p).drop MAX_PACKET_SIZE) MAX_PACKET_SIZE).flatten
        = enc p := by
      rw [← hchop]; exact chop_flatten _ _
    rw [hchop, chainFrames_cons]
    simp only [List.cons_append, List.flatten_cons] at hflat ⊢
    simp only [recvBinary, Nat.succ_ne_zero, if_false, Nat.add_sub_cancel,
      grabBytes_exact, chainRecv_chainFrames]
    rw [hflat, hinv]
  · rw [if_neg h]
    simp [recvBinary, grabBytes_exact_nil, hinv]

end Pyserve

namespace Pyserve

/-- C3. For every encoded payload `E`, binary framing send transmits a
single frame with style `0` when `len(E) ≤ MAX_PACKET_SIZE` (including the
exact boundary); when `len(E) > MAX_PACKET_SIZE` it partitions `E` into
ordered chunks whose concatenation is `E`, all of size `MAX_PACKET_SIZE`
except possibly the last (never larger), and transmits chunk `i` of `k`
with style `k - i` — which is `1` for the final chunk `i = k - 1`. -/
theorem C3_binary_send_partition (E : List Nat) :
    (E.length ≤ MAX_PACKET_SIZE →
      sendBinaryFrames E = BItem.hdr E.length 0 :: E.map BItem.byte)
    ∧ (MAX_PACKET_SIZE < E.length →
      (chop E MAX_PACKET_SIZE).flatten = E
      ∧ (∀ i, i + 1 < (chop E MAX_PACKET_SIZE).length →
          ((chop E MAX_PACKET_SIZE).getD i []).length = MAX_PACKET_SIZE)
      ∧ (∀ i, ((chop E MAX_PACKET_SIZE).getD i []).length ≤ MAX_PACKET_SIZE)
      ∧ sendBinaryFrames E = frameEnum (chop E MAX_PACKET_SIZE)) := by
  constructor
  · intro h
    rw [sendBinaryFrames, if_neg (by omega)]
  · intro h
    exact ⟨chop_flatten E MAX_PACKET_SIZE,
      chop_chunk_full E MAX_PACKET_SIZE,
      chop_chunk_le E MAX_PACKET_SIZE (by norm_num [MAX_PACKET_SIZE]),
      by rw [sendBinaryFrames, if_pos h, chainFrames_eq_frameEnum]⟩

/-- Witness for `C3_binary_send_partition`: the boundary payload of length
exactly `MAX_PACKET_SIZE` would also take the single-frame branch, and a
payload one byte longer is partitioned with concatenation preserved. -/
theorem C3_binary_send_partition_witness :
    (([1, 2, 3] : List Nat).length ≤ MAX_PACKET_SIZE
      ∧ sendBinaryFrames [1, 2, 3]
          = BItem.hdr 3 0 :: ([1, 2, 3] : List Nat).map BItem.byte)
    ∧ (MAX_PACKET_SIZE < (List.replicate (MAX_PACKET_SIZE + 1) (0 : Nat)).length
      ∧ (chop (List.replicate (MAX_PACKET_SIZE + 1) (0 : Nat))
          MAX_PACKET_SIZE).flatten
          = List.replicate (MAX_PACKET_SIZE + 1) (0 : Nat)) :=
  ⟨⟨by decide, (C3_binary_send_partition [1, 2, 3]).1 (by decide)⟩,
    ⟨by rw [List.length_replicate]; omega,
      ((C3_binary_send_partition _).2
        (by rw [List.length_replicate]; omega)).1⟩⟩

/-- C4 (code evaluated at the failing input). A decoder that signals
malformed on the given bytes: on the chained path (`style = 1`, one
chunk) the binary `recv_message` RAISES (`PacketMalformedError`
escapes the `except struct.error` handler), while on the single-frame
path (`style = 0`) the same malformed payload is caught and `None` is
returned.  The claim that both paths return `nil` is violated by the
chained path. -/
theorem C4_chained_malformed_raises :
    recvBinary (fun _ : List Nat => (Except.error () : Except Unit Unit))
        [BItem.hdr 3 1, BItem.byte 1, BItem.byte 2, BItem.byte 3]
      = Except.error ()
    ∧ recvBinary (fun _ : List Nat => (Except.error () : Except Unit Unit))
        [BItem.hdr 3 0, BItem.byte 1, BItem.byte 2, BItem.byte 3]
      = Except.ok none :=
  ⟨rfl, rfl⟩

/-! ## Textual framing (`make_string_protocol`)

The textual codec's `encode_function` returns a Python `str`; a string is
modelled as `List (List Nat)`: one entry per character, holding that
character's byte sequence under the configured `encoding`.  `len(s)` on
the Python string is the number of characters (`List.length`);
`bytes(s, encoding)` is the concatenation (`List.flatten`). -/

/-- Little-endian base-10 digits of `n`, computed with structural fuel so
that concrete instances reduce in the kernel; agrees with `Nat.digits 10`
whenever `n ≤ fuel`. -/
def decDigitsAux : Nat → Nat → List Nat
  | 0, _ => []
  | fuel + 1, n => if n = 0 then [] else n % 10 :: decDigitsAux fuel (n / 10)

/-- Decimal digit bytes of `n`, as Python `str(n)` produces (ASCII codes,
most significant first; `str(0) = "0"`). -/
def decDigits (n : Nat) : List Nat :=
  if n = 0 then [48] else (decDigitsAux n n).reverse.map (fun d => d + 48)

theorem decDigitsAux_eq_digits (fuel : Nat) :
    ∀ n, n ≤ fuel → decDigitsAux fuel n = Nat.digits 10 n := by
  induction fuel with
  | zero =>
    intro n hn
    have : n = 0 := by omega
    subst this
    simp [decDigitsAux]
  | succ f ih =>
    intro n hn
    rw [decDigitsAux]
    by_cases hzero : n = 0
    · simp [hzero]
    · rw [if_neg hzero,
        ih (n / 10) (by
          have := Nat.div_lt_self (Nat.pos_of_ne_zero hzero) (by norm_num : 1 < 10)
          omega),
        ← Nat.digits_def' (by norm_num : 1 < 10) (Nat.pos_of_ne_zero hzero)]

/-- `str(len(serialised)).rjust(header_length, zero_string)`. -/
def padHeader (hl : Nat) (z : Nat) (ds : List Nat) : List Nat :=
  List.replicate (hl - ds.length) z ++ ds

/-- `send_message` of `make_string_protocol` (socketprotocol.py lines
102–106): transmit the padded decimal header of `len(serialised)` (the
CHARACTER count of the encoded string), then the byte encoding of the
string, in full. -/
def sendTextual {P : Type} (encode : P → List (List Nat)) (hl : Nat)
    (z : Nat) (p : P) : List Nat :=
  let serialised := encode p
  padHeader hl z (decDigits serialised.length) ++ serialised.flatten

/-- Python `int(header_text)` restricted to the inputs it accepts on this
path: a non-empty all-digit numeral (returns its value); anything else
raises `ValueError` (`none`). -/
def parseHeaderNat (bs : List Nat) : Option Nat :=
  if bs ≠ [] ∧ bs.all (fun b => decide (48 ≤ b) && decide (b ≤ 57)) then
    some (bs.foldl (fun acc b => 10 * acc + (b - 48)) 0)
  else none

/-- Outcomes of the textual `recv_message` other than a returned value. -/
inductive TextualErr where
  | valueError -- `int(length)` raised; there is no handler in `recv_message`
  | starved    -- the `recv_into` loop can never fill the buffer (the
               -- stream holds fewer than `ilength` bytes): the source
               -- loops forever; modelled as an error outcome
  | malformed  -- `decode_function` raised `PacketMalformedError`; there is
               -- no handler in the textual `recv_message`
deriving DecidableEq, Repr

/-- `recv_message` of `make_string_protocol` (socketprotocol.py lines
108–118) on a byte stream: read `header_length` bytes; an empty read
(`""`) returns `None`; otherwise parse the header with `int` (raising
`ValueError` on a non-numeral), then read exactly `ilength` payload
bytes (looping until the buffer is full) and decode them. -/
def recvTextual {P : Type} (decode : List Nat → Except Unit P) (hl : Nat)
    (stream : List Nat) : Except TextualErr (Option P) :=
  let header := stream.take hl
  if header = [] then Except.ok none
  else
    match parseHeaderNat header with
    | none => Except.error TextualErr.valueError
    | some L =>
      let rest := stream.drop hl
      if rest.length < L then Except.error TextualErr.starved
      else
        match decode (rest.take L) with
        | Except.ok p => Except.ok (some p)
        | Except.error _ => Except.error TextualErr.malformed

theorem foldl_header_replicate_zero (k : Nat) :
    List.foldl (fun acc b => 10 * acc + (b - 48)) 0 (List.replicate k 48)
      = 0 := by
  induction k with
  | zero => rfl
  | succ n ih => simpa [List.replicate_succ] using ih

theorem foldl_digits_reverse (l : List Nat) (acc : Nat) :
    List.foldl (fun a d => 10 * a + d) acc l.reverse
      = acc * 10 ^ l.length + Nat.ofDigits 10 l := by
  induction l generalizing acc with
  | nil => simp [Nat.ofDigits]
  | cons d t ih =>
    simp only [List.reverse_cons, List.foldl_append, List.foldl_cons,
      List.foldl_nil, ih, Nat.ofDigits_cons, List.length_cons, pow_succ]
    ring

theorem foldl_decDigits (n : Nat) :
    List.foldl (fun acc b => 10 * acc + (b - 48)) 0 (decDigits n) = n := by
  by_cases h : n = 0
  · subst h; rfl
  · rw [decDigits, if_neg h, decDigitsAux_eq_digits n n le_rfl]
    simp only [List.foldl_map, Nat.add_sub_cancel]
    rw [foldl_digits_reverse]
    simp [Nat.ofDigits_digits]

theorem decDigits_are_digits (n : Nat) :
    ∀ b ∈ decDigits n, 48 ≤ b ∧ b ≤ 57 := by
  intro b hb
  rw [decDigits] at hb
  by_cases h : n = 0
  · rw [if_pos h] at hb
    simp only [List.mem_singleton] at hb
    omega
  · rw [if_neg h, decDigitsAux_eq_digits n n le_rfl] at hb
    simp only [List.mem_map, List.mem_reverse] at hb
    obtain ⟨d, hd, rfl⟩ := hb
    have hlt : d < 10 := Nat.digits_lt_base (by norm_num) hd
    omega

theorem decDigits_ne_nil (n : Nat) : decDigits n ≠ [] := by
  rw [decDigits]
  by_cases h : n = 0
  · simp [h]
  · rw [if_neg h, decDigitsAux_eq_digits n n le_rfl]
    simp [Nat.digits_ne_nil_iff_ne_zero.mpr h]

theorem parse_padHeader (hl : Nat) (n : Nat) :
    parseHeaderNat (padHeader hl 48 (decDigits n)) = some n := by
  rw [parseHeaderNat, if_pos, padHeader, List.foldl_append,
    foldl_header_replicate_zero, foldl_decDigits]
  constructor
  · rw [padHeader]
    intro hcontra
    exact decDigits_ne_nil n (List.append_eq_nil.mp hcontra).2
  · rw [padHeader, List.all_eq_true]
    intro b hb
    rcases List.mem_append.mp hb with hmem | hmem
    · rw [List.eq_of_mem_replicate hmem]
      decide
    · have hdig := decDigits_are_digits n b hmem
      simp only [Bool.and_eq_true, decide_eq_true_eq]
      omega

theorem padHeader_length_of_le (hl : Nat) (z : Nat) (ds : List Nat)
    (h : ds.length ≤ hl) : (padHeader hl z ds).length = hl := by
  simp only [padHeader, List.length_append, List.length_replicate]
  omega

theorem flatten_length_single {α : Type} (l : List (List α))
    (h : ∀ c ∈ l, c.length = 1) : l.flatten.length = l.length := by
  induction l with
  | nil => rfl
  | cons c t ih =>
    simp only [List.flatten_cons, List.length_append, List.length_cons,
      h c (by simp), ih (fun x hx => h x (by simp [hx]))]
    omega

theorem recvTextual_sendTextual {P : Type} (enc : P → List (List Nat))
    (dec : List Nat → Except Unit P) (hl : Nat) (p : P)
    (hinv : dec (enc p).flatten = Except.ok p)
    (hhl : 0 < hl)
    (hchars : ∀ c ∈ enc p, c.length = 1)
    (hfit : (decDigits (enc p).length).length ≤ hl) :
    recvTextual dec hl (sendTextual enc hl 48 p) = Except.ok (some p) := by
  have hlen := padHeader_length_of_le hl 48 _ hfit
  have htake : (padHeader hl 48 (decDigits (enc p).length)
      ++ (enc p).flatten).take hl = padHeader hl 48 (decDigits (enc p).length) :=
    List.take_left' hlen
  have hdrop : (padHeader hl 48 (decDigits (enc p).length)
      ++ (enc p).flatten).drop hl = (enc p).flatten :=
    List.drop_left' hlen
  have hflatlen : (enc p).flatten.length = (enc p).length :=
    flatten_length_single _ hchars
  have hne : padHeader hl 48 (decDigits (enc p).length) ≠ [] := by
    intro hcontra
    have hlen0 := congrArg List.length hcontra
    rw [hlen] at hlen0
    simp at hlen0
    omega
  rw [recvTextual, sendTextual]
  simp only [htake, hdrop, if_neg hne, parse_padHeader, hflatlen,
    lt_self_iff_false, if_false]
  rw [← hflatlen, List.take_length, hinv]

/-- C2. Frame-layer round trip: for every codec and every packet whose
encoding the codec supports (`decode` inverts `encode`), framing-send
followed by framing-receive on the transmitted stream yields the packet
back.  Binary framing (both the single-frame and the chained path) needs
only the inverse hypothesis; textual framing additionally relies on the
properties the shipped configuration guarantees for supported packets:
every character of the encoded string occupies one byte (the bundled JSON
encoder emits ASCII only), the decimal length fits the `header_length`
field, and `zero_string` is `"0"` with a positive `header_length`. -/
theorem C2_frame_roundtrip {P : Type} :
    (∀ (enc : P → List Nat) (dec : List Nat → Except Unit P) (p : P),
        dec (enc p) = Except.ok p →
        recvBinary dec (sendBinary enc p) = Except.ok (some p))
    ∧ (∀ (enc : P → List (List Nat)) (dec : List Nat → Except Unit P)
        (hl : Nat) (p : P),
        dec (enc p).flatten = Except.ok p →
        0 < hl →
        (∀ c ∈ enc p, c.length = 1) →
        (decDigits (enc p).length).length ≤ hl →
        recvTextual dec hl (sendTextual enc hl 48 p) = Except.ok (some p)) :=
  ⟨recvBinary_sendBinary, recvTextual_sendTextual⟩

/-- Witness for `C2_frame_roundtrip`: a concrete codec and packet run
through the binary and the textual frame layer. -/
theorem C2_frame_roundtrip_witness :
    ((fun l : List Nat => if l = [7] then Except.ok 7 else Except.error ())
        ((fun n : Nat => [n]) 7) = Except.ok 7
      ∧ recvBinary
          (fun l : List Nat => if l = [7] then Except.ok 7 else Except.error ())
          (sendBinary (fun n : Nat => [n]) 7) = Except.ok (some 7))
    ∧ ((fun l : List Nat => if l = [7] then Except.ok 7 else Except.error ())
        ((fun n : Nat => [[n]]) 7).flatten = Except.ok 7
      ∧ recvTextual
          (fun l : List Nat => if l = [7] then Except.ok 7 else Except.error ())
          12 (sendTextual (fun n : Nat => [[n]]) 12 48 7) = Except.ok (some 7)) :=
  ⟨⟨rfl,
    C2_frame_roundtrip.1 (fun n => [n]) _ 7 rfl⟩,
   ⟨rfl,
    C2_frame_roundtrip.2 (fun n => [[n]]) _ 12 7 rfl (by decide)
      (by decide) (by decide)⟩⟩

/-- C5 counterexample. A 12-byte header of `'A'` characters cannot be
parsed as a decimal integer: the textual `recv_message` raises
`ValueError` (uncaught) instead of returning `nil` as the claim states. -/
theorem C5_unparsable_header_raises :
    recvTextual (fun l : List Nat => Except.ok l) 12 (List.replicate 12 65)
        = Except.error TextualErr.valueError
    ∧ recvTextual (fun l : List Nat => Except.ok l) 12 (List.replicate 12 65)
        ≠ Except.ok none :=
  ⟨rfl, fun h => Except.noConfusion h⟩

/-- C5 amended. Textual framing receive returns `nil` exactly when the
header read returns zero bytes (empty stream); a nonempty header that is
not a decimal numeral raises `ValueError` (which propagates — it does not
yield `nil`); otherwise, with parsed length `L` and at least `L` payload
bytes available, it reads exactly the next `L` bytes and decodes them. -/
theorem C5_textual_recv_amended {P : Type} (dec : List Nat → Except Unit P)
    (hl : Nat) :
    recvTextual dec hl [] = Except.ok none
    ∧ (∀ stream : List Nat, stream ≠ [] → 0 < hl →
        parseHeaderNat (stream.take hl) = none →
        recvTextual dec hl stream = Except.error TextualErr.valueError)
    ∧ (∀ (stream : List Nat) (L : Nat),
        parseHeaderNat (stream.take hl) = some L →
        L ≤ (stream.drop hl).length →
        recvTextual dec hl stream
          = match dec ((stream.drop hl).take L) with
            | Except.ok p => Except.ok (some p)
            | Except.error _ => Except.error TextualErr.malformed) := by
  refine ⟨by simp [recvTextual], ?_, ?_⟩
  · intro stream hstream hhl hparse
    rw [recvTextual]
    rw [if_neg (by simp [List.take_eq_nil_iff, hstream]; omega), hparse]
  · intro stream L hparse hlen
    have hne : stream.take hl ≠ [] := by
      intro hcontra
      rw [hcontra] at hparse
      simp [parseHeaderNat] at hparse
    simp only [recvTextual, if_neg hne, hparse]
    rw [if_neg (by omega)]

/-- Witness for `C5_textual_recv_amended`: the unparsable-header branch and
the normal decode branch at concrete streams. -/
theorem C5_textual_recv_amended_witness :
    ((List.replicate 12 (65 : Nat)) ≠ [] ∧ (0 : Nat) < 12
      ∧ parseHeaderNat ((List.replicate 12 (65 : Nat)).take 12) = none
      ∧ recvTextual (fun l : List Nat => Except.ok l) 12 (List.replicate 12 65)
          = Except.error TextualErr.valueError)
    ∧ (parseHeaderNat
        (([48, 48, 48, 48, 48, 48, 48, 48, 48, 48, 48, 50, 7, 8] :
            List Nat).take 12) = some 2
      ∧ (2 : Nat) ≤ (([48, 48, 48, 48, 48, 48, 48, 48, 48, 48, 48, 50, 7, 8] :
            List Nat).drop 12).length
      ∧ recvTextual (fun l : List Nat => Except.ok l) 12
          [48, 48, 48, 48, 48, 48, 48, 48, 48, 48, 48, 50, 7, 8]
          = Except.ok (some [7, 8])) :=
  ⟨⟨by decide, by decide, by decide,
    (C5_textual_recv_amended (fun l : List Nat => Except.ok l) 12).2.1
      (List.replicate 12 65) (by decide) (by decide) (by decide)⟩,
   ⟨by decide, by decide,
    (C5_textual_recv_amended (fun l : List Nat => Except.ok l) 12).2.2
      [48, 48, 48, 48, 48, 48, 48, 48, 48, 48, 48, 50, 7, 8] 2
      (by decide) (by decide)⟩⟩

/-- C6 counterexample. With an encode function producing the single
character `'é'` (two bytes `[195, 169]` under UTF-8), the transmitted
header reads `1` — the number of characters of the encoded string — while
the payload that follows is `2` bytes long, so the header's decimal value
is not the number of payload bytes. -/
theorem C6_header_counts_chars_not_bytes :
    parseHeaderNat
        ((sendTextual (fun _ : Unit => [[195, 169]]) 12 48 ()).take 12)
      = some 1
    ∧ ((sendTextual (fun _ : Unit => [[195, 169]]) 12 48 ()).drop 12).length
      = 2
    ∧ (1 : Nat) ≠ 2 :=
  ⟨by decide, by decide, by decide⟩

/-- C6 amended. Textual framing send transmits a header whose decimal
value is the number of CHARACTERS of the encoded string `len(serialised)`
(left-padded to `header_length` with `zero_string`), followed by the full
byte encoding of the string; the header value equals the payload byte
count exactly when every character encodes to one byte (as the bundled
ASCII-only JSON encoder guarantees). -/
theorem C6_textual_send_amended {P : Type} (enc : P → List (List Nat))
    (hl : Nat) (p : P)
    (hfit : (decDigits (enc p).length).length ≤ hl) :
    parseHeaderNat ((sendTextual enc hl 48 p).take hl)
        = some (enc p).length
    ∧ (sendTextual enc hl 48 p).drop hl = (enc p).flatten
    ∧ ((∀ c ∈ enc p, c.length = 1) →
        parseHeaderNat ((sendTextual enc hl 48 p).take hl)
          = some ((sendTextual enc hl 48 p).drop hl).length) := by
  have hlen := padHeader_length_of_le hl 48 _ hfit
  have htake : (sendTextual enc hl 48 p).take hl
      = padHeader hl 48 (decDigits (enc p).length) := by
    rw [sendTextual]
    exact List.take_left' hlen
  have hdrop : (sendTextual enc hl 48 p).drop hl = (enc p).flatten := by
    rw [sendTextual]
    exact List.drop_left' hlen
  refine ⟨?_, hdrop, ?_⟩
  · rw [htake, parse_padHeader]
  · intro hchars
    rw [htake, parse_padHeader, hdrop, flatten_length_single _ hchars]

/-- Witness for `C6_textual_send_amended`: a concrete two-character ASCII
string of two bytes. -/
theorem C6_textual_send_amended_witness :
    (decDigits ((fun _ : Unit => [[104], [105]]) ()).length).length ≤ 12
    ∧ parseHeaderNat
        ((sendTextual (fun _ : Unit => [[104], [105]]) 12 48 ()).take 12)
      = some 2
    ∧ (sendTextual (fun _ : Unit => [[104], [105]]) 12 48 ()).drop 12
      = [104, 105] :=
  ⟨by decide,
   (C6_textual_send_amended (fun _ : Unit => [[104], [105]]) 12 () (by decide)).1,
   (C6_textual_send_amended (fun _ : Unit => [[104], [105]]) 12 () (by decide)).2.1⟩

/-! ## Protocol lookup (`load_protocol`, socketprotocol.py lines 122–149
and 215–218) -/

/-- Python `str.lower()` for the ASCII protocol names in play. -/
def asciiLowerChar (c : Char) : Char :=
  if 'A' ≤ c ∧ c ≤ 'Z' then Char.ofNat (c.toNat + 32) else c

def asciiLower (s : String) : String :=
  ⟨s.data.map asciiLowerChar⟩

/-- The argument shapes `load_protocol(protocol_name, ...)` distinguishes:
`None`, a single `str`, a `list` of names, or any other sequence — in
particular the `tuple` that `DEFAULT_PROTOCOL` is. -/
inductive ProtoArg where
  | noneArg
  | str (s : String)
  | list (l : List String)
  | tuple (l : List String)
deriving DecidableEq, Repr

/-- `DEFAULT_PROTOCOL` (socketprotocol.py lines 215–218) — a TUPLE
`("msgpack", "json")`, not a `list`. -/
def DEFAULT_PROTOCOL : ProtoArg := ProtoArg.tuple ["msgpack", "json"]

/-- `_load_protocol(protocol_name, sorted_args)` (lines 122–129): produce
the codec when the name is a key of `LOADED_PROTOCOLS`, else raise
`KeyError`.  The registry is the list of loaded names; the constructed
codec is represented by the name it was resolved from (the `lru_cache`
and the options map do not affect which name resolves). -/
def loadProtocolSingle (registry : List String) (name : String) :
    Except Unit String :=
  if name ∈ registry then Except.ok name else Except.error ()

/-- The `for protocol in protocol_name: with suppress(KeyError): return
_load_protocol(protocol.lower(), ...)` loop of `load_protocol`. -/
def loadFirst (registry : List String) : List String → Except Unit String
  | [] => Except.error ()
  | n :: rest =>
    match loadProtocolSingle registry (asciiLower n) with
    | Except.ok c => Except.ok c
    | Except.error _ => loadFirst registry rest

/-- `load_protocol` (socketprotocol.py lines 131–149).  `None` is replaced
by `DEFAULT_PROTOCOL`; a `str` resolves case-insensitively; a `list` is
scanned for the first resolving name; anything else — including the
default TUPLE — falls through both `isinstance` checks to the final
`raise KeyError`. -/
def load_protocol (registry : List String) (arg : ProtoArg) :
    Except Unit String :=
  let arg := if arg = ProtoArg.noneArg then DEFAULT_PROTOCOL else arg
  match arg with
  | ProtoArg.str s => loadProtocolSingle registry (asciiLower s)
  | ProtoArg.list l => loadFirst registry l
  | _ => Except.error ()

/-- C1 (code evaluated at the failing input).  `load_protocol(None)`
ALWAYS raises the unknown-protocol `KeyError`, whatever the registry
holds, because `DEFAULT_PROTOCOL` is a tuple and only `list` arguments
are scanned; yet with the shipped registry (the plugin manifest loads
`json`, `msgpack` and `pickle`) the default names do resolve when passed
as a list — contradicting the claim that `None` returns the codec of the
first resolving default name. -/
theorem C1_load_protocol_none_always_fails :
    (∀ registry : List String,
        load_protocol registry ProtoArg.noneArg = Except.error ())
    ∧ load_protocol ["json", "msgpack", "pickle"] ProtoArg.noneArg
        = Except.error ()
    ∧ load_protocol ["json", "msgpack", "pickle"]
        (ProtoArg.list ["msgpack", "json"]) = Except.ok "msgpack"
    ∧ "msgpack" ∈ ["json", "msgpack", "pickle"] :=
  ⟨fun _ => rfl, rfl, rfl, by decide⟩

/-! ## Connection worker (`Connection`, connection.py) -/

/-- `Address` (address.py): an immutable `(addr, port)` pair. -/
structure Address where
  addr : String
  port : Int
deriving DecidableEq, Repr

/-- One result of `protocol.recv_message(self.conn)` as observed by
`Connection.recv` (connection.py lines 74–102). -/
inductive RecvEvent (P : Type) where
  | packet (p : P) -- a decoded strict packet
  | malformed      -- `recv_message` returned `None` (malformed frame or
                   -- end of stream)
  | connError      -- `recv_message` raised ConnectionAbortedError /
                   -- ConnectionResetError / OSError
deriving DecidableEq, Repr

/-- Whether a receive result makes `Connection.recv` post the
`(peer, None)` sentinel and close the connection. -/
def isTerminalEvent {P : Type} : RecvEvent P → Bool
  | RecvEvent.packet _ => false
  | RecvEvent.malformed => true
  | RecvEvent.connError => true

/-- `Connection.blocking_operate` (connection.py lines 104–106) driven by
the successive results its socket produces: the entries the worker posts
to the server's inbound queue, in order.  A packet is posted as
`(addr, some p)` and the loop continues; a malformed result or a
connection error posts the `(addr, none)` sentinel, sets `closed`, and
the loop exits. -/
def blockingOperate {P : Type} (addr : Address) :
    List (RecvEvent P) → List (Address × Option P)
  | [] => []
  | RecvEvent.packet p :: rest => (addr, some p) :: blockingOperate addr rest
  | RecvEvent.malformed :: _ => [(addr, none)]
  | RecvEvent.connError :: _ => [(addr, none)]

/-- C7. Under either a disconnect (connection error during receive) or a
malformed-frame condition, the worker posts exactly one `(peer, nil)`
sentinel to the inbound queue, it is the last entry it posts before the
receive loop exits, and every entry carries the originating peer. -/
theorem C7_worker_posts_one_sentinel {P : Type} (addr : Address)
    (events : List (RecvEvent P))
    (h : ∃ e ∈ events, isTerminalEvent e = true) :
    (blockingOperate addr events).countP (fun x => x.2.isNone) = 1
    ∧ (∃ pre, blockingOperate addr events = pre ++ [(addr, none)]
        ∧ ∀ x ∈ pre, x.2.isSome = true)
    ∧ ∀ x ∈ blockingOperate addr events, x.1 = addr := by
  induction events with
  | nil => simp at h
  | cons e rest ih =>
    match e with
    | RecvEvent.packet p =>
      have hres : ∃ e ∈ rest, isTerminalEvent e = true := by
        obtain ⟨e', he', ht⟩ := h
        rcases List.mem_cons.mp he' with rfl | hmem
        · simp [isTerminalEvent] at ht
        · exact ⟨e', hmem, ht⟩
      obtain ⟨hcount, ⟨pre, hpre, hsome⟩, haddr⟩ := ih hres
      refine ⟨?_, ⟨(addr, some p) :: pre, ?_, ?_⟩, ?_⟩
      · simp [blockingOperate, List.countP_cons, hcount]
      · simp [blockingOperate, hpre]
      · intro x hx
        rcases List.mem_cons.mp hx with rfl | hmem
        · simp
        · exact hsome x hmem
      · intro x hx
        rw [blockingOperate] at hx
        rcases List.mem_cons.mp hx with rfl | hmem
        · rfl
        · exact haddr x hmem
    | RecvEvent.malformed =>
      refine ⟨by simp [blockingOperate], ⟨[], by simp [blockingOperate], by simp⟩, ?_⟩
      intro x hx
      rw [blockingOperate] at hx
      simp at hx
      rw [hx]
    | RecvEvent.connError =>
      refine ⟨by simp [blockingOperate], ⟨[], by simp [blockingOperate], by simp⟩, ?_⟩
      intro x hx
      rw [blockingOperate] at hx
      simp at hx
      rw [hx]

/-- Witness for `C7_worker_posts_one_sentinel`: a worker that receives one
packet and then a malformed frame posts the packet and exactly one
sentinel. -/
theorem C7_worker_posts_one_sentinel_witness :
    (∃ e ∈ [RecvEvent.packet (5 : Nat), RecvEvent.malformed],
        isTerminalEvent e = true)
    ∧ (blockingOperate ⟨"127.0.0.1", 48575⟩
        [RecvEvent.packet (5 : Nat), RecvEvent.malformed]).countP
          (fun x => x.2.isNone) = 1 :=
  ⟨by decide,
   (C7_worker_posts_one_sentinel ⟨"127.0.0.1", 48575⟩
      [RecvEvent.packet (5 : Nat), RecvEvent.malformed] (by decide)).1⟩

/-! ## Request manager (`RequestManagerServer`, manager.py)

Packet values: the serialisable element types of the data model
(`protocols/plugin.py`: `None`, `bool`, `int`, `str`, `list`, `dict`),
plus `addrV` for an arbitrary Python object stored into a dict — the
`Address` dataclass instance that `_handle_request` assigns (floating
point values do not occur in any claim and are left out of the
embedding).  A Python `dict` is an association list keyed by `String`,
updated in place. -/

inductive PVal where
  | null
  | boolean (b : Bool)
  | int (i : Int)
  | str (s : String)
  | listV (l : List PVal)
  | dictV (d : List (String × PVal))
  | addrV (a : Address)

/-- A strict packet: a top-level mapping from string keys to values. -/
abbrev StrictPacket := List (String × PVal)

/-- Python dict assignment `d[k] = v`: update the existing binding in
place, or append a new one at the end. -/
def dictSet (d : StrictPacket) (k : String) (v : PVal) : StrictPacket :=
  match d with
  | [] => [(k, v)]
  | (k', v') :: rest =>
    if k' = k then (k, v) :: rest else (k', v') :: dictSet rest k v

/-- The exceptions `server.send` can raise on the reply path:
`ServerError`, `KeyError` (unknown peer), or `PacketMalformedError`
(response the codec cannot encode). -/
inductive SendErr where
  | serverError
  | keyError
  | malformed
deriving DecidableEq, Repr

/-- `RequestManagerServer.reply` (manager.py lines 88–92): invoke the
server's send; `ServerError` and `KeyError` are warned and swallowed;
any other exception propagates. -/
def reply (send : Address → Option StrictPacket → Except SendErr Unit)
    (client : Address) (response : Option StrictPacket) :
    Except SendErr Unit :=
  match send client response with
  | Except.ok _ => Except.ok ()
  | Except.error SendErr.serverError => Except.ok ()
  | Except.error SendErr.keyError => Except.ok ()
  | Except.error e => Except.error e

/-- `RequestManagerBase.post` (manager.py lines 64–70): `None` when the
header names no subscribed request, otherwise the handler's result.  A
non-string header is never a key of the string-keyed `requests` dict. -/
def post (requests : List (String × (StrictPacket → StrictPacket)))
    (name : PVal) (packet : StrictPacket) : Option StrictPacket :=
  match name with
  | PVal.str s =>
    match requests.lookup s with
    | none => none
    | some f => some (f packet)
  | _ => none

/-- `RequestManagerServer._handle_request` (manager.py lines 94–101).
Returns the `(mutated packet, response)` pair on the normal path so the
injected `"addr"` value can be inspected; `none` when the packet was the
`nil` sentinel and the handler returned without action.  Note
`packet["addr"] = cast(list, addr)` stores the `Address` object itself —
`typing.cast` performs no conversion at runtime. -/
def handleRequest (send : Address → Option StrictPacket → Except SendErr Unit)
    (requests : List (String × (StrictPacket → StrictPacket)))
    (headerKey : String) (addr : Address) (packet : Option StrictPacket) :
    Except SendErr (Option (StrictPacket × Option StrictPacket)) :=
  match packet with
  | none => Except.ok none
  | some pkt =>
    match pkt.lookup headerKey with
    | none => Except.error SendErr.keyError -- `packet[...]` raises KeyError
    | some header =>
      let pkt := dictSet pkt "addr" (PVal.addrV addr)
      let resp := post requests header pkt
      match reply send addr resp with
      | Except.ok _ => Except.ok (some (pkt, resp))
      | Except.error e => Except.error e

/-- C8 counterexample.  `_handle_request` stores the peer `Address`
dataclass instance itself under `"addr"` — not the list
`[peer.host, peer.port]` the claim states — and a send failure other
than `ServerError`/`KeyError` (here `PacketMalformedError`) is NOT
swallowed: it escapes `_handle_request`. -/
theorem C8_addr_is_address_object :
    (dictSet [("RequestType", PVal.str "T")] "addr"
        (PVal.addrV ⟨"127.0.0.1", 48575⟩)).lookup "addr"
      = some (PVal.addrV ⟨"127.0.0.1", 48575⟩)
    ∧ PVal.addrV ⟨"127.0.0.1", 48575⟩
      ≠ PVal.listV [PVal.str "127.0.0.1", PVal.int 48575]
    ∧ handleRequest (fun _ _ => Except.error SendErr.malformed) []
        "RequestType" ⟨"127.0.0.1", 48575⟩
        (some [("RequestType", PVal.str "T")])
      = Except.error SendErr.malformed :=
  ⟨rfl, fun h => PVal.noConfusion h, rfl⟩

theorem reply_swallows_server_and_key_errors
    (send : Address → Option StrictPacket → Except SendErr Unit)
    (client : Address) (response : Option StrictPacket)
    (h : send client response ≠ Except.error SendErr.malformed) :
    reply send client response = Except.ok () := by
  rw [reply]
  match hsend : send client response with
  | Except.ok _ => rfl
  | Except.error SendErr.serverError => rfl
  | Except.error SendErr.keyError => rfl
  | Except.error SendErr.malformed => exact absurd hsend h

/-- C8 amended.  `_handle_request` returns without action when the packet
is `nil`; otherwise it reads the header from the configured header key
(raising `KeyError` when absent), stores the peer `Address` value itself
under `"addr"` (not a `[host, port]` list), computes the response via
`post(header, packet)` and sends it to the peer, warning and swallowing
`ServerError`/`KeyError` send failures (other send exceptions
propagate). -/
theorem C8_handle_request_amended
    (send : Address → Option StrictPacket → Except SendErr Unit)
    (requests : List (String × (StrictPacket → StrictPacket)))
    (headerKey : String) (addr : Address) :
    handleRequest send requests headerKey addr none = Except.ok none
    ∧ (∀ (pkt : StrictPacket) (header : PVal),
        pkt.lookup headerKey = some header →
        send addr (post requests header (dictSet pkt "addr" (PVal.addrV addr)))
          ≠ Except.error SendErr.malformed →
        handleRequest send requests headerKey addr (some pkt)
          = Except.ok (some (dictSet pkt "addr" (PVal.addrV addr),
              post requests header (dictSet pkt "addr" (PVal.addrV addr))))) := by
  refine ⟨rfl, ?_⟩
  intro pkt header hheader hsend
  rw [handleRequest, hheader]
  simp only [reply_swallows_server_and_key_errors send addr _ hsend]

/-- Witness for `C8_handle_request_amended`: a concrete subscribed handler
echoing a response, with a send that succeeds. -/
theorem C8_handle_request_amended_witness :
    ([("RequestType", PVal.str "T")] : StrictPacket).lookup "RequestType"
      = some (PVal.str "T")
    ∧ (fun (_ : Address) (_ : Option StrictPacket) =>
          (Except.ok () : Except SendErr Unit)) ⟨"127.0.0.1", 48575⟩
        (post [("T", fun _ => [("response", PVal.int 11)])] (PVal.str "T")
          (dictSet [("RequestType", PVal.str "T")] "addr"
            (PVal.addrV ⟨"127.0.0.1", 48575⟩)))
      ≠ Except.error SendErr.malformed
    ∧ handleRequest (fun _ _ => Except.ok ())
        [("T", fun _ => [("response", PVal.int 11)])]
        "RequestType" ⟨"127.0.0.1", 48575⟩
        (some [("RequestType", PVal.str "T")])
      = Except.ok (some
          (dictSet [("RequestType", PVal.str "T")] "addr"
            (PVal.addrV ⟨"127.0.0.1", 48575⟩),
          some [("response", PVal.int 11)])) :=
  ⟨rfl, fun h => Except.noConfusion h,
   (C8_handle_request_amended (fun _ _ => Except.ok ())
      [("T", fun _ => [("response", PVal.int 11)])] "RequestType"
      ⟨"127.0.0.1", 48575⟩).2
      [("RequestType", PVal.str "T")] (PVal.str "T") rfl
      (fun h => Except.noConfusion h)⟩

/-! ## Server send (`Server.send`, server.py lines 131–142, and
`Connection.send`, connection.py lines 57–65) -/

/-- The state of a `Connection` that `Connection.send` consults: its
`closed` flag. -/
structure Conn where
  closed : Bool
deriving DecidableEq, Repr

/-- `Connection.send` (connection.py lines 57–65): return `False` without
touching the socket when the connection is closed; otherwise invoke the
protocol's `send_message` on the socket (the second component lists the
packets written to the socket) and return `True`. -/
def connectionSend {P : Type} (c : Conn) (packet : P) : Bool × List P :=
  if c.closed then (false, []) else (true, [packet])

/-- `Server.send` (server.py lines 131–142): under the connections lock,
`self._clients[address].send(packet)` — a missing key raises `KeyError`
(`Except.error`), otherwise the connection's send runs. -/
def serverSend {P : Type} (clients : List (Address × Conn)) (addr : Address)
    (packet : P) : Except Unit (Bool × List P) :=
  match clients.lookup addr with
  | none => Except.error ()
  | some c => Except.ok (connectionSend c packet)

/-- C9.  `Server.send` raises the `KeyError`-equivalent when no connection
is registered under the address; when the registered connection is
closed it returns silently — no exception and nothing written to the
socket. -/
theorem C9_server_send_guards {P : Type} (clients : List (Address × Conn))
    (addr : Address) (packet : P) :
    (clients.lookup addr = none →
      serverSend clients addr packet = Except.error ())
    ∧ (∀ c : Conn, clients.lookup addr = some c → c.closed = true →
      serverSend clients addr packet = Except.ok (false, [])) := by
  constructor
  · intro h
    rw [serverSend, h]
  · intro c hc hclosed
    rw [serverSend, hc]
    simp [connectionSend, hclosed]

/-- Witness for `C9_server_send_guards`: a registry with one closed
connection, probed at a missing address and at the closed one. -/
theorem C9_server_send_guards_witness :
    (([] : List (Address × Conn)).lookup ⟨"10.0.0.9", 1⟩ = none
      ∧ serverSend ([] : List (Address × Conn)) ⟨"10.0.0.9", 1⟩ (37 : Nat)
        = Except.error ())
    ∧ (([(⟨"127.0.0.1", 48575⟩, ⟨true⟩)] :
          List (Address × Conn)).lookup ⟨"127.0.0.1", 48575⟩ = some ⟨true⟩
      ∧ serverSend [(⟨"127.0.0.1", 48575⟩, ⟨true⟩)] ⟨"127.0.0.1", 48575⟩
          (37 : Nat) = Except.ok (false, [])) :=
  ⟨⟨rfl, (C9_server_send_guards [] ⟨"10.0.0.9", 1⟩ 37).1 rfl⟩,
   ⟨by decide,
    (C9_server_send_guards [(⟨"127.0.0.1", 48575⟩, ⟨true⟩)]
      ⟨"127.0.0.1", 48575⟩ 37).2 ⟨true⟩ (by decide) rfl⟩⟩

/-! ## Client (`Client`, client.py) -/

/-- `ClientState` (client.py lines 15–18). -/
inductive ClientState where
  | IDLE
  | CONNECTED
  | CLOSED
deriving DecidableEq, Repr

/-- Exceptions a client operation can surface. -/
inductive ClientErr where
  | notConnected  -- ClientNotConnectedError from `_connected_check`
  | protocolErr   -- an exception out of the protocol layer (e.g.
                  -- PacketMalformedError on encode)
deriving DecidableEq, Repr

/-- `Client.send` (client.py lines 96–104): `_connected_check` raises
`ClientNotConnectedError` unless the state is CONNECTED; otherwise the
protocol's `send_message` runs, whose outcome `proto` is a parameter.
The client state is returned alongside: neither path mutates it. -/
def clientSend (st : ClientState) (proto : Except Unit Unit) :
    Except ClientErr Unit × ClientState :=
  if st = ClientState.CONNECTED then
    (match proto with
     | Except.ok _ => Except.ok ()
     | Except.error _ => Except.error ClientErr.protocolErr, st)
  else (Except.error ClientErr.notConnected, st)

/-- One outcome of `protocol.recv_message` inside `Client.recv`. -/
inductive ClientRecvOutcome (P : Type) where
  | value (v : Option P) -- returned a packet, or `None`
  | reset                -- raised ConnectionAborted/ConnectionReset:
                         -- suppressed, and the single-shot loop returns
                         -- the still-`None` packet
  | raised               -- any other exception: propagates
deriving DecidableEq, Repr

/-- `Client.recv` (client.py lines 106–119): `_connected_check` first;
then one receive attempt — the `while packet is None` loop returns
unconditionally after its first iteration.  State is never mutated. -/
def clientRecv {P : Type} (st : ClientState) (outcome : ClientRecvOutcome P) :
    Except ClientErr (Option P) × ClientState :=
  if st = ClientState.CONNECTED then
    (match outcome with
     | ClientRecvOutcome.value v => Except.ok v
     | ClientRecvOutcome.reset => Except.ok none
     | ClientRecvOutcome.raised => Except.error ClientErr.protocolErr, st)
  else (Except.error ClientErr.notConnected, st)

/-- C10.  In any state other than CONNECTED — exactly IDLE or CLOSED —
both `send` and `recv` raise `ClientNotConnectedError` and leave the
state unchanged; in state CONNECTED neither ever raises that error. -/
theorem C10_client_connected_guard {P : Type} (st : ClientState)
    (proto : Except Unit Unit) (outcome : ClientRecvOutcome P) :
    (st ≠ ClientState.CONNECTED ↔
      st = ClientState.IDLE ∨ st = ClientState.CLOSED)
    ∧ (st ≠ ClientState.CONNECTED →
        clientSend st proto = (Except.error ClientErr.notConnected, st)
        ∧ clientRecv st outcome = (Except.error ClientErr.notConnected, st))
    ∧ (st = ClientState.CONNECTED →
        (clientSend st proto).1 ≠ Except.error ClientErr.notConnected
        ∧ (clientRecv st outcome).1 ≠ Except.error ClientErr.notConnected) := by
  refine ⟨by cases st <;> simp, ?_, ?_⟩
  · intro h
    rw [clientSend.eq_def, if_neg h, clientRecv.eq_def, if_neg h]
    exact ⟨rfl, rfl⟩
  · intro h
    subst h
    rw [clientSend.eq_def, if_pos rfl, clientRecv.eq_def, if_pos rfl]
    constructor
    · match proto with
      | Except.ok _ => simp
      | Except.error _ => simp
    · match outcome with
      | ClientRecvOutcome.value v => simp
      | ClientRecvOutcome.reset => simp
      | ClientRecvOutcome.raised => simp

/-- Witness for `C10_client_connected_guard`: a client in IDLE raises
not-connected on send; a CONNECTED client with a failing protocol send
surfaces a protocol error, not the not-connected error. -/
theorem C10_client_connected_guard_witness :
    (ClientState.IDLE ≠ ClientState.CONNECTED
      ∧ clientSend ClientState.IDLE (Except.ok ())
          = (Except.error ClientErr.notConnected, ClientState.IDLE))
    ∧ (ClientState.CONNECTED = ClientState.CONNECTED
      ∧ (clientSend ClientState.CONNECTED (Except.error ())).1
          ≠ Except.error ClientErr.notConnected
      ∧ (clientRecv ClientState.CONNECTED
          (ClientRecvOutcome.value (some (3 : Nat)))).1
          ≠ Except.error ClientErr.notConnected) :=
  ⟨⟨by decide,
    ((C10_client_connected_guard ClientState.IDLE (Except.ok ())
      (ClientRecvOutcome.value (some (3 : Nat)))).2.1 (by decide)).1⟩,
   ⟨rfl,
    ((C10_client_connected_guard ClientState.CONNECTED (Except.error ())
      (ClientRecvOutcome.value (some (3 : Nat)))).2.2 rfl).1,
    ((C10_client_connected_guard ClientState.CONNECTED (Except.error ())
      (ClientRecvOutcome.value (some (3 : Nat)))).2.2 rfl).2⟩⟩

end Pyserve
